import Mathlib

/-!
Verification development for the ARTICo³ project loader
(`tools/_pypack/artico3/runtime/project.py`).

The Python module is shallowly embedded: each method of `Project` becomes a
pure Lean function, Python integers become `Int`, and process-level effects
(`sys.exit(1)`, uncaught exceptions, the early `return` on an unreadable
config file) become constructors of an explicit result type.  External
collaborators that are not part of the source file (the `devices.fpgas`
capability table, the `shutil2` path helpers, `configparser`, Python's
`int()` and `re` primitives) are modelled at their interface boundary,
following the specification's description of that boundary.
-/

/-! ## String primitives (boundary models) -/

/-- Python `str.startswith`: list-level character prefix test. -/
def strStartsWith (pre s : String) : Bool :=
  pre.toList.isPrefixOf s.toList

/-- Auxiliary for `containsSub`: scans the haystack left to right. -/
def containsSub : List Char → List Char → Bool
  | needle, [] => needle.isEmpty
  | needle, c :: rest => needle.isPrefixOf (c :: rest) || containsSub needle rest

/-- Python's `needle in hay` on strings: contiguous-substring test. -/
def strContains (needle hay : String) : Bool :=
  containsSub needle.toList hay.toList

/-- Auxiliary for `extractName`: walks the reversed character list, collecting
the characters that follow the chosen `@`.  An `@` with no character after it
(empty accumulator) cannot end the match, so the scan keeps it as part of a
candidate name and continues leftwards, mirroring the backtracking of the
greedy regular expression. -/
def lastAtSplit : List Char → List Char → Option (List Char)
  | _, [] => none
  | acc, c :: rest =>
    if c = '@' then
      if acc.isEmpty then lastAtSplit (c :: acc) rest else some acc
    else lastAtSplit (c :: acc) rest

/-- The kernel-name extraction `re.search(r"^.*@(?P<name>.+)", header)`:
the greedy `.*` makes the captured name the (nonempty) text after the last
`@` that is followed by at least one character; no such `@` means no match.
Section headers never contain newlines, so `.`-does-not-match-newline is
immaterial. -/
def extractName (s : String) : Option String :=
  (lastAtSplit [] s.toList.reverse).map (fun cs => String.mk cs)

/-- Accumulates decimal digits; any non-digit character rejects the string. -/
def digitsToNatAux : List Char → Nat → Option Nat
  | [], acc => some acc
  | c :: cs, acc =>
    if c.isDigit then digitsToNatAux cs (acc * 10 + (c.toNat - 48)) else none

/-- Modelled from the spec: Python's `int()` applied to the string values the
config parser returns (an external primitive, not part of the source file).
Modelled for optionally signed decimal numerals; surrounding whitespace and
digit-group underscores are not exercised by any claim and are not modelled. -/
def pyInt (s : String) : Option Int :=
  match s.toList with
  | [] => none
  | '-' :: cs =>
    if cs.isEmpty then none else (digitsToNatAux cs 0).map (fun n => -(n : Int))
  | '+' :: cs =>
    if cs.isEmpty then none else (digitsToNatAux cs 0).map (fun n => (n : Int))
  | cs => (digitsToNatAux cs 0).map (fun n => (n : Int))

/-- True on the characters of the delimiter class `[, ]`. -/
def isDelim (c : Char) : Bool := c = ',' || c = ' '

/-- Auxiliary for `reSplit`.  Mode `false`: accumulating a token (in reverse)
in the second argument; mode `true`: inside a delimiter run that has already
emitted its token boundary. -/
def reSplitAux : Bool → List Char → List Char → List String
  | false, cur, [] => [String.mk cur.reverse]
  | false, cur, c :: rest =>
    if isDelim c then String.mk cur.reverse :: reSplitAux true [] rest
    else reSplitAux false (c :: cur) rest
  | true, _, [] => [""]
  | true, _, c :: rest =>
    if isDelim c then reSplitAux true [] rest
    else reSplitAux false [c] rest

/-- `re.split(r"[, ]+", s)`: splits on maximal runs of commas and spaces;
a leading or trailing run contributes an empty token, interior runs do not. -/
def reSplit (s : String) : List String :=
  reSplitAux false [] s.toList

/-- Auxiliary for `splitAtLast`: walks the reversed character list. -/
def splitAtLastAux (t : Char) : List Char → List Char → Option (List Char × List Char)
  | _, [] => none
  | acc, c :: rest =>
    if c = t then some (rest.reverse, acc) else splitAtLastAux t (c :: acc) rest

/-- Splits a string at the last occurrence of a character, returning the text
before and after it; `none` when the character does not occur. -/
def splitAtLast (t : Char) (s : String) : Option (String × String) :=
  (splitAtLastAux t [] s.toList.reverse).map
    (fun pr => (String.mk pr.1, String.mk pr.2))

/-! ## Path helpers (interface boundary of `shutil2`, which is repository
code outside the covered source file) -/

/-- Modelled from the spec: `shutil2.abspath` — the stored descriptor file
path.  Paths are taken as already absolute, so this is the identity. -/
def abspath (p : String) : String := p

/-- Modelled from the spec: `shutil2.dirname` — the containing directory of
the file path, i.e. the text before the last path separator. -/
def dirname (p : String) : String :=
  match splitAtLast '/' p with
  | some pr => pr.1
  | none => ""

/-- Modelled from the spec: `shutil2.trimext` — the base name without
extension, i.e. the text before the last dot (the path itself if none). -/
def trimext (p : String) : String :=
  match splitAtLast '.' p with
  | some pr => pr.1
  | none => p

/-- Modelled from the spec: `shutil2.join` — path concatenation with the
separator. -/
def joinPath (a b : String) : String := a ++ "/" ++ b

/-! ## Data model -/

/-- `Kernel.__init__`: one accelerator core definition.  `hwsrc` is `none`
when the `HwSource` key is absent (Python `None`). -/
structure Kernel where
  name : String
  hwsrc : Option String
  membytes : Int
  membanks : Int
  regrw : Int
  regro : Int
  rstpol : String
deriving DecidableEq

/-- `Slot.__init__`: a physical slot; `id` is the value the process-wide
counter had when the slot was constructed. -/
structure Slot where
  kerns : List Kernel
  id : Nat
deriving DecidableEq

/-- `Shuffler.__init__` fields, as overwritten by `_parse_shuffler`. -/
structure Shuffler where
  slots : Nat
  stages : Nat
  clkbuf : String
  rstbuf : String
  xdcpart : String
deriving DecidableEq

/-- Initial `Shuffler` state from `Shuffler.__init__`. -/
def shufflerInit : Shuffler :=
  { slots := 0
    stages := 0
    clkbuf := "none"
    rstbuf := "none"
    xdcpart := "" }

/-- `Implementation.__init__` fields.  `board` and `xil` are the token lists
produced by `re.split(r"[, ]+", ...)` in `_parse_project`; their initial
value (a Python empty string) is modelled as the empty list. -/
structure Implementation where
  repo : String
  board : List String
  part : String
  design : String
  xil : List String
  os : String
  cflags : String
  ldflags : String
deriving DecidableEq

/-- Initial `Implementation` state. -/
def implInit (repo : String) : Implementation :=
  { repo := repo
    board := []
    part := ""
    design := ""
    xil := []
    os := ""
    cflags := ""
    ldflags := "" }

/-- `Project` state: the aggregate mutated by `load`. -/
structure Project where
  kerns : List Kernel
  slots : List Slot
  shuffler : Shuffler
  impl : Implementation
  name : String
  file : String
  dir : String
  basedir : String
deriving DecidableEq

/-- `Project.__init__` with the repository root already resolved (the
`isdir`/environment fallback is filesystem behaviour outside the model). -/
def projectInit (repo : String) : Project :=
  { kerns := []
    slots := []
    shuffler := shufflerInit
    impl := implInit repo
    name := ""
    file := ""
    dir := ""
    basedir := "" }

/-- Modelled from the spec: one entry of the device capability table
`devices.fpgas` (repository code outside the covered source file).  The
table is an insertion-ordered dictionary, modelled as a list iterated in
order. -/
structure DeviceEntry where
  ident : String
  slots : Nat
  pipe_depth : Nat
  clk_buffer : String
  rst_buffer : String
deriving DecidableEq

/-- One section of the parsed config document: its header name and its
(case-sensitive, duplicate-free) key/value pairs, as produced by
`configparser.RawConfigParser` with `optionxform = str`. -/
structure A3Section where
  header : String
  opts : List (String × String)
deriving DecidableEq

/-- The parsed config document: its sections in file order. -/
structure Cfg where
  sections : List A3Section
deriving DecidableEq

/-- `cfg.get(section, key)` / `cfg.has_option`: first section with the given
header, then its value for the key. -/
def cfgGet (cfg : Cfg) (sec key : String) : Option String :=
  match cfg.sections.find? (fun s => s.header = sec) with
  | some s => (s.opts.find? (fun kv => kv.1 = key)).map (fun kv => kv.2)
  | none => none

/-- Option lookup inside one section. -/
def secGet (sec : A3Section) (key : String) : Option String :=
  (sec.opts.find? (fun kv => kv.1 = key)).map (fun kv => kv.2)

/-! ## Outcome types: process-level effects made explicit -/

/-- Result of `_parse_project` (and its callees): normal completion, process
termination through `sys.exit(1)`, or an uncaught Python exception.  Each
constructor carries the project state at that point. -/
inductive ParseResult where
  | ok (p : Project)
  | exited (p : Project)
  | raised (p : Project)
deriving DecidableEq

/-- Result of `Project.load`: normal return, the logged early return when the
config file cannot be read, `sys.exit(1)`, or an uncaught exception. -/
inductive LoadResult where
  | returned (p : Project)
  | softError (p : Project)
  | exited (p : Project)
  | raised (p : Project)
deriving DecidableEq

/-- Discriminator: did `load` end in an uncaught exception? -/
def LoadResult.isRaised : LoadResult → Bool
  | .raised _ => true
  | _ => false

/-! ## Kernel parsing -/

/-- The memory-geometry normalization expression of `_parse_kernels`:
`int(math.ceil((membytes / membanks) / 4) * 4 * membanks)`.  Python's true
division is exact rational division for the magnitudes involved (its float
result is exact wherever the ceiling could be affected), so it is embedded
as division in `ℚ` with the integer ceiling. -/
def normMemBytes (bytes banks : Int) : Int :=
  ⌈((bytes : ℚ) / (banks : ℚ)) / 4⌉ * 4 * banks

/-- The per-field defaulting blocks of `_parse_kernels` for the integer
options: a present value goes through `int()` (`ValueError` on a
non-numeric string), an absent one is replaced by the logged default. -/
def getIntOpt (sec : A3Section) (key : String) (dflt : Int) : Except String Int :=
  match secGet sec key with
  | some v =>
    match pyInt v with
    | some i => Except.ok i
    | none => Except.error "ValueError"
  | none => Except.ok dflt

/-- The defaulted kernel fields, before normalization. -/
structure RawKernelFields where
  hwsrc : Option String
  membytes : Int
  membanks : Int
  regrw : Int
  regro : Int
  rstpol : String
deriving DecidableEq

/-- The defaulting blocks of `_parse_kernels` (lines 231–271 minus the
normalization): `HwSource` stays unset when absent, `MemBytes` defaults to
`16 * 2 ** 10`, `MemBanks` to 2, `RegRW` and `RegRO` to 4, `RstPol` to
`"low"`.  In the source the normalization sits between the `MemBanks` and
`RegRW` blocks; hoisting it out (see `parse_kernel_section`) is
observationally equal here because every failure is collapsed to the same
`raised` outcome. -/
def kernel_fields (sec : A3Section) : Except String RawKernelFields :=
  match getIntOpt sec "MemBytes" (16 * 2 ^ 10) with
  | Except.error e => Except.error e
  | Except.ok membytes =>
  match getIntOpt sec "MemBanks" 2 with
  | Except.error e => Except.error e
  | Except.ok membanks =>
  match getIntOpt sec "RegRW" 4 with
  | Except.error e => Except.error e
  | Except.ok regrw =>
  match getIntOpt sec "RegRO" 4 with
  | Except.error e => Except.error e
  | Except.ok regro =>
    Except.ok
      { hwsrc := secGet sec "HwSource"
        membytes := membytes
        membanks := membanks
        regrw := regrw
        regro := regro
        rstpol := (secGet sec "RstPol").getD "low" }

/-- One iteration of the `_parse_kernels` loop body.  A header without an
extractable name logs an error and then unconditionally evaluates
`match.group("name")` on `None`, i.e. raises `AttributeError`.  A zero bank
count raises `ZeroDivisionError` at the normalization division.  Otherwise
the memory size is replaced by its normalized value when they differ. -/
def parse_kernel_section (sec : A3Section) : Except String Kernel :=
  match extractName sec.header with
  | none => Except.error "AttributeError"
  | some name =>
  match kernel_fields sec with
  | Except.error e => Except.error e
  | Except.ok f =>
    if f.membanks = 0 then Except.error "ZeroDivisionError"
    else
      Except.ok
        { name := name
          hwsrc := f.hwsrc
          membytes :=
            if f.membytes ≠ normMemBytes f.membytes f.membanks then
              normMemBytes f.membytes f.membanks
            else f.membytes
          membanks := f.membanks
          regrw := f.regrw
          regro := f.regro
          rstpol := f.rstpol }

/-- The `_parse_kernels` loop: appends each parsed kernel to the running
list; an exception stops the loop, leaving the kernels appended so far. -/
def parse_kernels_go (acc : List Kernel) :
    List A3Section → Sum (List Kernel) (List Kernel × String)
  | [] => Sum.inl acc
  | sec :: rest =>
    match parse_kernel_section sec with
    | Except.error e => Sum.inr (acc, e)
    | Except.ok k => parse_kernels_go (acc ++ [k]) rest

/-- `_parse_kernels`: iterates over the sections whose header starts with
`"A3Kernel"`, in document order. -/
def parse_kernels (init : List Kernel) (cfg : Cfg) :
    Sum (List Kernel) (List Kernel × String) :=
  parse_kernels_go init
    (cfg.sections.filter (fun s => strStartsWith "A3Kernel" s.header))

/-! ## Shuffler derivation, project parsing, validation, load -/

/-- `_parse_shuffler`: the first device-table entry whose identifier is a
substring of the target part supplies the shuffler fields and is recorded as
`xdcpart`; no match is `sys.exit(1)`, i.e. `none`. -/
def parse_shuffler (table : List DeviceEntry) (part : String) : Option Shuffler :=
  match table.find? (fun d => strContains d.ident part) with
  | some d =>
    some
      { slots := d.slots
        stages := d.pipe_depth
        clkbuf := d.clk_buffer
        rstbuf := d.rst_buffer
        xdcpart := d.ident }
  | none => none

/-- The synthetic placeholder kernel appended by `_parse_project`:
`Kernel("dummy", "vhdl", 4096, 2, 2, 2, "low")`. -/
def dummyKernel : Kernel :=
  { name := "dummy"
    hwsrc := some "vhdl"
    membytes := 4096
    membanks := 2
    regrw := 2
    regro := 2
    rstpol := "low" }

/-- The slot-creation loop of `_parse_project`: `Slot._id` was reset to 0 at
the start of `load` and no other slot is constructed in between, so the `n`
slots carry identifiers `0 .. n-1`, each bound to the placeholder kernel. -/
def mkSlots (n : Nat) : List Slot :=
  (List.range n).map (fun i => { kerns := [dummyKernel], id := i })

/-- The `General`-section extraction of `_parse_project`, field by field in
source order.  A missing required key raises (`configparser.NoOptionError` /
`NoSectionError`), carried as `Except.error` with the state at the raise;
`CFlags` and `LdFlags` default to the empty string. -/
def parse_general (p : Project) (cfg : Cfg) : Except Project Project :=
  match cfgGet cfg "General" "Name" with
  | none => Except.error p
  | some nm =>
  let p1 : Project := { p with name := nm }
  match cfgGet cfg "General" "TargetBoard" with
  | none => Except.error p1
  | some tb =>
  let p2 : Project := { p1 with impl := { p1.impl with board := reSplit tb } }
  match cfgGet cfg "General" "TargetPart" with
  | none => Except.error p2
  | some tp =>
  let p3 : Project := { p2 with impl := { p2.impl with part := tp } }
  match cfgGet cfg "General" "ReferenceDesign" with
  | none => Except.error p3
  | some rd =>
  let p4 : Project := { p3 with impl := { p3.impl with design := rd } }
  match cfgGet cfg "General" "TargetXil" with
  | none => Except.error p4
  | some tx =>
  let p5 : Project := { p4 with impl := { p4.impl with xil := reSplit tx } }
  match cfgGet cfg "General" "TargetOS" with
  | none => Except.error p5
  | some tos =>
  let p6 : Project := { p5 with impl := { p5.impl with os := tos } }
  let p7 : Project :=
    { p6 with impl :=
      { p6.impl with cflags := (cfgGet cfg "General" "CFlags").getD "" } }
  let p8 : Project :=
    { p7 with impl :=
      { p7.impl with ldflags := (cfgGet cfg "General" "LdFlags").getD "" } }
  Except.ok p8

/-- `_parse_project`: general section, shuffler derivation, kernel
derivation, then the placeholder kernel and the slot loop. -/
def parse_project (p : Project) (table : List DeviceEntry) (cfg : Cfg) :
    ParseResult :=
  match parse_general p cfg with
  | Except.error q => ParseResult.raised q
  | Except.ok q =>
  match parse_shuffler table q.impl.part with
  | none => ParseResult.exited q
  | some sh =>
  match parse_kernels q.kerns cfg with
  | Sum.inr pe =>
    ParseResult.raised
      { q with
        shuffler := sh
        kerns := pe.1 }
  | Sum.inl ks =>
    ParseResult.ok
      { q with
        shuffler := sh
        kerns := ks ++ [dummyKernel]
        slots := mkSlots sh.slots }

/-- `_check_project`: iterates the kernels in order; `true` means some check
failed and the process terminated through `sys.exit(1)`. -/
def check_project : List Kernel → Bool
  | [] => false
  | k :: rest =>
    if k.hwsrc = none then true
    else if 64 * 2 ^ 10 < k.membytes then true
    else if ¬ (k.rstpol = "high" ∨ k.rstpol = "low") then true
    else check_project rest

/-- The unconditional preamble of `load`: resets the slot counter (implicit
in `mkSlots`), clears the kernel and slot lists, and sets the three path
fields — all before the config file is read. -/
def load_init (p : Project) (filepath : String) : Project :=
  { p with
    kerns := []
    slots := []
    file := abspath filepath
    dir := dirname (abspath filepath)
    basedir := trimext (abspath filepath) }

/-- `Project.load`.  `readCfg` is the outcome of `cfg.read(filepath)`:
`none` when the file cannot be read (empty list returned), in which case an
error is logged and `load` returns early in the preamble state. -/
def load (p : Project) (table : List DeviceEntry) (filepath : String)
    (readCfg : Option Cfg) : LoadResult :=
  match readCfg with
  | none => LoadResult.softError (load_init p filepath)
  | some cfg =>
    match parse_project (load_init p filepath) table cfg with
    | ParseResult.raised q => LoadResult.raised q
    | ParseResult.exited q => LoadResult.exited q
    | ParseResult.ok q =>
      if check_project q.kerns then LoadResult.exited q
      else LoadResult.returned q

/-- `Project.get_template`: the project-local `templates` directory wins
over the shared repository one.  `fs` is the `shutil2.exists` oracle on the
filesystem; the lookup is pure and returns only a path. -/
def get_template (fs : String → Bool) (p : Project) (name : String) : String :=
  if fs (joinPath (joinPath p.dir "templates") name) then
    joinPath (joinPath p.dir "templates") name
  else
    joinPath (joinPath p.impl.repo "templates") name

/-! ## Arithmetic of the memory-geometry normalization -/

/-- Rewrites the normalization as one ceiling division by `4 * banks`. -/
lemma normMemBytes_eq_ceil_mul (b k : ℤ) :
    normMemBytes b k = ⌈(b : ℚ) / (4 * (k : ℚ))⌉ * (4 * k) := by
  unfold normMemBytes
  rw [div_div, mul_comm ((k : ℚ)) 4, mul_assoc]

/-- Ceiling division never shrinks: `b ≤ ⌈b/m⌉ * m` for positive `m`. -/
lemma ceil_div_mul_le (b m : ℤ) (hm : 0 < m) :
    b ≤ ⌈(b : ℚ) / (m : ℚ)⌉ * m := by
  have hm' : (0 : ℚ) < (m : ℚ) := by exact_mod_cast hm
  have h1 : (b : ℚ) / (m : ℚ) ≤ (⌈(b : ℚ) / (m : ℚ)⌉ : ℚ) := Int.le_ceil _
  have h2 : (b : ℚ) ≤ (⌈(b : ℚ) / (m : ℚ)⌉ : ℚ) * (m : ℚ) := (div_le_iff₀ hm').mp h1
  exact_mod_cast h2

/-- Ceiling division is exact on multiples: `⌈b/m⌉ * m = b` when `m ∣ b`. -/
lemma ceil_div_mul_of_dvd (b m : ℤ) (hm : m ≠ 0) (h : m ∣ b) :
    ⌈(b : ℚ) / (m : ℚ)⌉ * m = b := by
  obtain ⟨t, rfl⟩ := h
  have hm' : ((m : ℚ)) ≠ 0 := by exact_mod_cast hm
  have ht : ((m * t : ℤ) : ℚ) / (m : ℚ) = ((t : ℤ) : ℚ) := by
    push_cast
    rw [mul_comm, mul_div_assoc, div_self hm', mul_one]
  rw [ht, Int.ceil_intCast, mul_comm]

/-- Evaluates the normalization at concrete inputs, given the two bounds
that pin down the ceiling. -/
lemma normMemBytes_eval (b k c : ℤ)
    (h1 : (c : ℚ) - 1 < (b : ℚ) / (k : ℚ) / 4)
    (h2 : (b : ℚ) / (k : ℚ) / 4 ≤ (c : ℚ)) :
    normMemBytes b k = c * 4 * k := by
  unfold normMemBytes
  rw [Int.ceil_eq_iff.mpr ⟨h1, h2⟩]

/-- The specification's worked example: `normalize(16401, 2) = 16408`. -/
lemma normMemBytes_16401_2 : normMemBytes 16401 2 = 16408 := by
  rw [normMemBytes_eval 16401 2 2051 (by norm_num) (by norm_num)]
  norm_num

/-- `16384` is already aligned for two banks. -/
lemma normMemBytes_16384_2 : normMemBytes 16384 2 = 16384 := by
  rw [normMemBytes_eval 16384 2 2048 (by norm_num) (by norm_num)]
  norm_num

/-- `70000` is already aligned for two banks, so normalization keeps it. -/
lemma normMemBytes_70000_2 : normMemBytes 70000 2 = 70000 := by
  rw [normMemBytes_eval 70000 2 8750 (by norm_num) (by norm_num)]
  norm_num

/-! ## Inversion lemmas for the load pipeline -/

/-- What a successful `General`-section parse guarantees: the fields `load`
just initialised (and the repository root) are untouched, and the recorded
target part is exactly the descriptor's `TargetPart` value. -/
lemma parse_general_ok (p : Project) (cfg : Cfg) (q : Project)
    (h : parse_general p cfg = Except.ok q) :
    q.kerns = p.kerns ∧ q.slots = p.slots ∧ q.file = p.file ∧
      q.dir = p.dir ∧ q.basedir = p.basedir ∧ q.shuffler = p.shuffler ∧
      q.impl.repo = p.impl.repo ∧
      cfgGet cfg "General" "TargetPart" = some q.impl.part := by
  unfold parse_general at h
  split at h
  · exact absurd h (by simp)
  split at h
  · exact absurd h (by simp)
  split at h
  · exact absurd h (by simp)
  split at h
  · exact absurd h (by simp)
  split at h
  · exact absurd h (by simp)
  split at h
  · exact absurd h (by simp)
  · injection h with h
    subst h
    refine ⟨rfl, rfl, rfl, rfl, rfl, rfl, rfl, ?_⟩
    assumption

/-- Decomposes a normally-completed `_parse_project` into its three stages
and the final state assembly. -/
lemma parse_project_ok_inv (p : Project) (table : List DeviceEntry) (cfg : Cfg)
    (r : Project) (h : parse_project p table cfg = ParseResult.ok r) :
    ∃ q sh ks, parse_general p cfg = Except.ok q ∧
      parse_shuffler table q.impl.part = some sh ∧
      parse_kernels q.kerns cfg = Sum.inl ks ∧
      r = { q with
            shuffler := sh
            kerns := ks ++ [dummyKernel]
            slots := mkSlots sh.slots } := by
  unfold parse_project at h
  split at h
  · exact absurd h (by simp)
  split at h
  · exact absurd h (by simp)
  split at h
  · exact absurd h (by simp)
  · injection h with h
    subst h
    exact ⟨_, _, _, by assumption, by assumption, by assumption, rfl⟩

/-- A normally-returning `load` is a normally-completed parse whose
validation found no violation. -/
lemma load_returned_inv (p : Project) (table : List DeviceEntry) (fp : String)
    (cfg : Cfg) (r : Project)
    (h : load p table fp (some cfg) = LoadResult.returned r) :
    parse_project (load_init p fp) table cfg = ParseResult.ok r ∧
      check_project r.kerns = false := by
  simp only [load] at h
  split at h
  · exact absurd h (by simp)
  · exact absurd h (by simp)
  · rename_i q hq
    split at h
    · exact absurd h (by simp)
    · rename_i hck
      injection h with h
      subst h
      exact ⟨hq, by simpa using hck⟩

/-! ## C1 -/

/-- Concrete kernel section exercising the normalization (MemBytes 16401). -/
def secC1 : A3Section :=
  { header := "A3Kernel@w1"
    opts := [("HwSource", "vhdl"), ("MemBytes", "16401")] }

/-- The defaulted fields of `secC1`. -/
def fC1 : RawKernelFields :=
  { hwsrc := some "vhdl"
    membytes := 16401
    membanks := 2
    regrw := 4
    regro := 4
    rstpol := "low" }

/-- The kernel parsed from `secC1`: 16401 bytes normalized to 16408. -/
def kC1 : Kernel :=
  { name := "w1"
    hwsrc := some "vhdl"
    membytes := 16408
    membanks := 2
    regrw := 4
    regro := 4
    rstpol := "low" }

/-- `secC1` defaults as expected. -/
lemma secC1_fields : kernel_fields secC1 = Except.ok fC1 := rfl

/-- Parsing `secC1` normalizes its memory size to 16408. -/
lemma secC1_parse : parse_kernel_section secC1 = Except.ok kC1 := by
  unfold parse_kernel_section
  rw [show extractName secC1.header = some "w1" from rfl, secC1_fields]
  dsimp only [fC1]
  rw [normMemBytes_16401_2]
  norm_num
  rfl

/-- C1: for every kernel section whose parsed values are `bytes` and `banks`
with `banks` positive, the stored memory size is
`ceil((bytes / banks) / 4) * 4 * banks` (the replacement is performed exactly
when that value differs from `bytes`, and is the identity otherwise), hence
an exact multiple of `4 * banks`; in particular
`normalize(16401, 2) = 16408`. -/
theorem C1_memory_normalization :
    (∀ (sec : A3Section) (f : RawKernelFields) (k : Kernel),
        kernel_fields sec = Except.ok f → 0 < f.membanks →
        parse_kernel_section sec = Except.ok k →
        k.membytes = normMemBytes f.membytes f.membanks ∧
        (4 * f.membanks) ∣ k.membytes) ∧
    normMemBytes 16401 2 = 16408 := by
  constructor
  · intro sec f k hf hpos hk
    unfold parse_kernel_section at hk
    split at hk
    · exact absurd hk (by simp)
    · rename_i name hname
      rw [hf] at hk
      split at hk
      · rename_i e he
        exact absurd he (by simp)
      · rename_i f2 hf2
        injection hf2 with hf2
        subst hf2
        split at hk
        · exact Except.noConfusion hk
        · rename_i hz
          injection hk with hk
          have hmm : (if f.membytes ≠ normMemBytes f.membytes f.membanks then
              normMemBytes f.membytes f.membanks else f.membytes) =
              normMemBytes f.membytes f.membanks := by
            by_cases hne : f.membytes ≠ normMemBytes f.membytes f.membanks
            · rw [if_pos hne]
            · rw [if_neg hne]
              exact not_not.mp hne
          have hmem : k.membytes = normMemBytes f.membytes f.membanks := by
            rw [← hk]
            exact hmm
          refine ⟨hmem, ?_⟩
          rw [hmem, normMemBytes_eq_ceil_mul]
          exact Dvd.intro_left _ rfl
  · exact normMemBytes_16401_2

/-- Witness for C1 at the concrete section `secC1`. -/
theorem C1_memory_normalization_witness :
    kernel_fields secC1 = Except.ok fC1 ∧ (0 : ℤ) < fC1.membanks ∧
      parse_kernel_section secC1 = Except.ok kC1 ∧
      kC1.membytes = normMemBytes fC1.membytes fC1.membanks ∧
      (4 * fC1.membanks) ∣ kC1.membytes := by
  have h := C1_memory_normalization.1 secC1 fC1 kC1 secC1_fields (by decide)
    secC1_parse
  exact ⟨secC1_fields, by decide, secC1_parse, h.1, h.2⟩

/-! ## C10 -/

/-- C10: for positive `bytes` and `banks`, the normalized size never shrinks
(`bytes ≤ normalize(bytes, banks)`), equals `bytes` exactly when `bytes` is
a multiple of `4 * banks`, and is idempotent. -/
theorem C10_normalization_monotone_idempotent (b k : ℤ)
    (_hb : 0 < b) (hk : 0 < k) :
    b ≤ normMemBytes b k ∧ (normMemBytes b k = b ↔ (4 * k) ∣ b) ∧
      normMemBytes (normMemBytes b k) k = normMemBytes b k := by
  have hm : (0 : ℤ) < 4 * k := by positivity
  have hm' : (4 * k : ℤ) ≠ 0 := ne_of_gt hm
  have hcast : (4 * ((k : ℤ) : ℚ)) = (((4 * k : ℤ)) : ℚ) := by
    push_cast
    ring
  have hnorm : ∀ b0 : ℤ,
      normMemBytes b0 k = ⌈(b0 : ℚ) / ((4 * k : ℤ) : ℚ)⌉ * (4 * k) := by
    intro b0
    rw [normMemBytes_eq_ceil_mul, hcast]
  have hdvd : ∀ b0 : ℤ, (4 * k) ∣ normMemBytes b0 k := by
    intro b0
    rw [hnorm b0]
    exact Dvd.intro_left _ rfl
  have heq_of_dvd : ∀ b0 : ℤ, (4 * k) ∣ b0 → normMemBytes b0 k = b0 := by
    intro b0 h0
    rw [hnorm b0]
    exact ceil_div_mul_of_dvd b0 (4 * k) hm' h0
  refine ⟨?_, ⟨?_, ?_⟩, ?_⟩
  · rw [hnorm b]
    exact ceil_div_mul_le b (4 * k) hm
  · intro he
    rw [← he]
    exact hdvd b
  · exact heq_of_dvd b
  · exact heq_of_dvd _ (hdvd b)

/-- Witness for C10 at `bytes = 16401`, `banks = 2`. -/
theorem C10_normalization_monotone_idempotent_witness :
    (0 : ℤ) < 16401 ∧ (0 : ℤ) < 2 ∧
      (16401 : ℤ) ≤ normMemBytes 16401 2 ∧
      normMemBytes (normMemBytes 16401 2) 2 = normMemBytes 16401 2 := by
  have h := C10_normalization_monotone_idempotent 16401 2 (by norm_num)
    (by norm_num)
  exact ⟨by norm_num, by norm_num, h.1, h.2.2⟩

/-! ## Shared concrete fixtures: one successful load -/

/-- A complete `General` section. -/
def generalSecW : A3Section :=
  { header := "General"
    opts := [("Name", "demo"), ("TargetBoard", "pynq"),
             ("TargetPart", "xc7z020clg400"), ("ReferenceDesign", "basic"),
             ("TargetXil", "vivado,2017.1"), ("TargetOS", "linux")] }

/-- A descriptor with a `General` section and no kernel sections. -/
def cfgW : Cfg := { sections := [generalSecW] }

/-- A two-entry device table; the second entry matches `xc7z020clg400`. -/
def tableW : List DeviceEntry :=
  [{ ident := "xc7z010"
     slots := 2
     pipe_depth := 2
     clk_buffer := "bufg"
     rst_buffer := "bufg" },
   { ident := "xc7z020"
     slots := 4
     pipe_depth := 3
     clk_buffer := "bufg"
     rst_buffer := "bufh" }]

/-- The project state produced by loading `cfgW` against `tableW`. -/
def rW : Project :=
  { kerns := [dummyKernel]
    slots := mkSlots 4
    shuffler :=
      { slots := 4
        stages := 3
        clkbuf := "bufg"
        rstbuf := "bufh"
        xdcpart := "xc7z020" }
    impl :=
      { repo := "/repo"
        board := ["pynq"]
        part := "xc7z020clg400"
        design := "basic"
        xil := ["vivado", "2017.1"]
        os := "linux"
        cflags := ""
        ldflags := "" }
    name := "demo"
    file := "/prj/w.cfg"
    dir := "/prj"
    basedir := "/prj/w" }

/-- Evaluating the whole pipeline on the concrete fixtures. -/
lemma load_evalW :
    load (projectInit "/repo") tableW "/prj/w.cfg" (some cfgW) =
      LoadResult.returned rW := by
  decide

/-! ## C2 -/

/-- A kernel section requesting 70000 bytes (already a multiple of 8, so
normalization keeps it) with a valid hardware source. -/
def sec70000 : A3Section :=
  { header := "A3Kernel@big"
    opts := [("HwSource", "vhdl"), ("MemBytes", "70000")] }

/-- The kernel parsed from `sec70000`. -/
def k70000 : Kernel :=
  { name := "big"
    hwsrc := some "vhdl"
    membytes := 70000
    membanks := 2
    regrw := 4
    regro := 4
    rstpol := "low" }

/-- Parsing `sec70000` keeps the 70000-byte size (it is already aligned). -/
lemma sec70000_parse : parse_kernel_section sec70000 = Except.ok k70000 := by
  unfold parse_kernel_section
  rw [show extractName sec70000.header = some "big" from rfl]
  rw [show kernel_fields sec70000 = Except.ok
        { hwsrc := some "vhdl"
          membytes := 70000
          membanks := 2
          regrw := 4
          regro := 4
          rstpol := "low" } from rfl]
  dsimp only
  rw [normMemBytes_70000_2]
  norm_num
  rfl

/-- A kernel satisfying all three checks (memory exactly at the 65536 cap). -/
def goodKernelC2 : Kernel :=
  { name := "ok"
    hwsrc := some "cpp"
    membytes := 65536
    membanks := 2
    regrw := 4
    regro := 4
    rstpol := "high" }

/-- C2: validation terminates the process fatally iff some kernel (the
placeholder included — the theorem quantifies over the full checked list)
has an unset hardware source, more than 65536 memory bytes, or a reset
polarity outside high/low; every normally-returning load passed validation;
the kernel parsed from `MemBytes = 70000` still fails after normalization,
while a kernel meeting all three conditions passes. -/
theorem C2_validation_fatal_iff :
    (∀ ks : List Kernel, check_project ks = true ↔
        ∃ k ∈ ks, k.hwsrc = none ∨ 65536 < k.membytes ∨
          (k.rstpol ≠ "high" ∧ k.rstpol ≠ "low")) ∧
    (∀ (p : Project) (table : List DeviceEntry) (fp : String) (cfg : Cfg)
        (r : Project), load p table fp (some cfg) = LoadResult.returned r →
        check_project r.kerns = false) ∧
    parse_kernel_section sec70000 = Except.ok k70000 ∧
    check_project [k70000] = true ∧
    check_project [goodKernelC2] = false := by
  refine ⟨?_, ?_, sec70000_parse, by decide, by decide⟩
  · intro ks
    induction ks with
    | nil => simp [check_project]
    | cons k rest ih =>
      unfold check_project
      by_cases h1 : k.hwsrc = none
      · rw [if_pos h1]
        constructor
        · intro _
          exact ⟨k, List.mem_cons_self k rest, Or.inl h1⟩
        · intro _
          rfl
      · rw [if_neg h1]
        by_cases h2 : (64 * 2 ^ 10 : ℤ) < k.membytes
        · rw [if_pos h2]
          constructor
          · intro _
            refine ⟨k, List.mem_cons_self k rest, Or.inr (Or.inl ?_)⟩
            norm_num at h2
            exact h2
          · intro _
            rfl
        · rw [if_neg h2]
          by_cases h3 : ¬ (k.rstpol = "high" ∨ k.rstpol = "low")
          · rw [if_pos h3]
            constructor
            · intro _
              exact ⟨k, List.mem_cons_self k rest,
                Or.inr (Or.inr ⟨fun he => h3 (Or.inl he),
                  fun he => h3 (Or.inr he)⟩)⟩
            · intro _
              rfl
          · rw [if_neg h3]
            rw [ih]
            constructor
            · rintro ⟨k2, hk2, hbad⟩
              exact ⟨k2, List.mem_cons_of_mem _ hk2, hbad⟩
            · rintro ⟨k2, hk2, hbad⟩
              rcases List.mem_cons.mp hk2 with he | hm
              · subst he
                rcases hbad with hb | hb | hb
                · exact absurd hb h1
                · norm_num at h2
                  exact absurd hb (not_lt.mpr h2)
                · rcases not_not.mp h3 with hp | hp
                  · exact absurd hp hb.1
                  · exact absurd hp hb.2
              · exact ⟨k2, hm, hbad⟩
  · intro p table fp cfg r h
    exact (load_returned_inv p table fp cfg r h).2

/-- Witness for C2: the concrete successful load passed validation. -/
theorem C2_validation_fatal_iff_witness :
    load (projectInit "/repo") tableW "/prj/w.cfg" (some cfgW) =
      LoadResult.returned rW ∧
    check_project rW.kerns = false := by
  refine ⟨load_evalW, ?_⟩
  exact C2_validation_fatal_iff.2.1 (projectInit "/repo") tableW "/prj/w.cfg"
    cfgW rW load_evalW

/-! ## C3 -/

/-- No-match means the find-first scan fails. -/
lemma parse_shuffler_none (table : List DeviceEntry) (part : String)
    (h : ∀ d ∈ table, strContains d.ident part = false) :
    parse_shuffler table part = none := by
  unfold parse_shuffler
  rw [List.find?_eq_none.mpr
    (fun x hx => by rw [h x hx]; exact Bool.false_ne_true)]

/-- The scan returns the first matching entry, in iteration order. -/
lemma parse_shuffler_first (part : String) :
    ∀ (pre : List DeviceEntry) (d : DeviceEntry) (post : List DeviceEntry),
      (∀ e ∈ pre, strContains e.ident part = false) →
      strContains d.ident part = true →
      (pre ++ d :: post).find? (fun e => strContains e.ident part) = some d := by
  intro pre
  induction pre with
  | nil =>
    intro d post _ hd
    rw [List.nil_append]
    exact List.find?_cons_of_pos _ hd
  | cons e pre ih =>
    intro d post hpre hd
    rw [List.cons_append, List.find?_cons_of_neg]
    · exact ih d post (fun x hx => hpre x (List.mem_cons_of_mem _ hx)) hd
    · rw [hpre e (List.mem_cons_self _ _)]
      exact Bool.false_ne_true

/-- C3: if no device-table identifier is a substring of the target part, the
shuffler derivation fails (`sys.exit(1)`), and a load reaching that point
terminates fatally with its slot list still empty; otherwise the first
matching entry (in table iteration order) supplies the slot count, pipeline
depth, clock- and reset-buffer strategies, and is recorded as the
device-constraints identifier. -/
theorem C3_device_lookup :
    (∀ (table : List DeviceEntry) (part : String),
        (∀ d ∈ table, strContains d.ident part = false) →
        parse_shuffler table part = none) ∧
    (∀ (pre : List DeviceEntry) (d : DeviceEntry) (post : List DeviceEntry)
        (part : String),
        (∀ e ∈ pre, strContains e.ident part = false) →
        strContains d.ident part = true →
        parse_shuffler (pre ++ d :: post) part = some
          { slots := d.slots
            stages := d.pipe_depth
            clkbuf := d.clk_buffer
            rstbuf := d.rst_buffer
            xdcpart := d.ident }) ∧
    (∀ (p : Project) (table : List DeviceEntry) (fp : String) (cfg : Cfg)
        (q : Project),
        parse_general (load_init p fp) cfg = Except.ok q →
        (∀ d ∈ table, strContains d.ident q.impl.part = false) →
        load p table fp (some cfg) = LoadResult.exited q ∧ q.slots = []) := by
  refine ⟨parse_shuffler_none, ?_, ?_⟩
  · intro pre d post part hpre hd
    unfold parse_shuffler
    rw [parse_shuffler_first part pre d post hpre hd]
  · intro p table fp cfg q hg hnone
    have hsh : parse_shuffler table q.impl.part = none :=
      parse_shuffler_none table q.impl.part hnone
    have hpp : parse_project (load_init p fp) table cfg =
        ParseResult.exited q := by
      unfold parse_project
      rw [hg]
      dsimp only
      rw [hsh]
    constructor
    · simp only [load, hpp]
    · rw [(parse_general_ok _ _ _ hg).2.1]
      rfl

/-- General section whose target part matches no entry of `tableW`. -/
def generalSecX : A3Section :=
  { header := "General"
    opts := [("Name", "demo"), ("TargetBoard", "pynq"),
             ("TargetPart", "xc7a100t"), ("ReferenceDesign", "basic"),
             ("TargetXil", "vivado"), ("TargetOS", "linux")] }

/-- Descriptor built from `generalSecX`. -/
def cfgX : Cfg := { sections := [generalSecX] }

/-- The project state right after the `General` parse of `cfgX`. -/
def qX : Project :=
  { kerns := []
    slots := []
    shuffler := shufflerInit
    impl :=
      { repo := "/repo"
        board := ["pynq"]
        part := "xc7a100t"
        design := "basic"
        xil := ["vivado"]
        os := "linux"
        cflags := ""
        ldflags := "" }
    name := "demo"
    file := "/prj/w.cfg"
    dir := "/prj"
    basedir := "/prj/w" }

/-- Evaluating the `General` parse of `cfgX`. -/
lemma parse_generalX :
    parse_general (load_init (projectInit "/repo") "/prj/w.cfg") cfgX =
      Except.ok qX := rfl

/-- Witness for C3: an unmatched part makes the concrete load exit with no
slots, and the first matching entry of `tableW` supplies the fields. -/
theorem C3_device_lookup_witness :
    parse_shuffler tableW "xc5v" = none ∧
    parse_shuffler tableW "xc7z020clg400" = some
      { slots := 4
        stages := 3
        clkbuf := "bufg"
        rstbuf := "bufh"
        xdcpart := "xc7z020" } ∧
    load (projectInit "/repo") tableW "/prj/w.cfg" (some cfgX) =
      LoadResult.exited qX ∧
    qX.slots = [] := by
  have h2 := C3_device_lookup.2.1
    [{ ident := "xc7z010"
       slots := 2
       pipe_depth := 2
       clk_buffer := "bufg"
       rst_buffer := "bufg" }]
    { ident := "xc7z020"
      slots := 4
      pipe_depth := 3
      clk_buffer := "bufg"
      rst_buffer := "bufh" }
    [] "xc7z020clg400" (by decide) (by decide)
  have h3 := C3_device_lookup.2.2 (projectInit "/repo") tableW "/prj/w.cfg"
    cfgX qX parse_generalX (by decide)
  exact ⟨C3_device_lookup.1 tableW "xc5v" (by decide), h2, h3.1, h3.2⟩

/-! ## C4 -/

/-- The slots created by the slot loop carry identifiers `0 .. n-1`. -/
lemma mkSlots_map_id (n : Nat) : (mkSlots n).map Slot.id = List.range n := by
  unfold mkSlots
  have hc : (Slot.id ∘ fun i : Nat =>
      ({ kerns := [dummyKernel], id := i } : Slot)) = id := by
    funext i
    rfl
  rw [List.map_map, hc, List.map_id]

lemma mkSlots_length (n : Nat) : (mkSlots n).length = n := by
  unfold mkSlots
  simp

/-- Inversion of a successful shuffler derivation: the matched entry. -/
lemma parse_shuffler_some_inv (table : List DeviceEntry) (part : String)
    (sh : Shuffler) (h : parse_shuffler table part = some sh) :
    ∃ d, table.find? (fun e => strContains e.ident part) = some d ∧
      sh.slots = d.slots := by
  unfold parse_shuffler at h
  split at h
  · rename_i d hd
    injection h with h
    subst h
    exact ⟨d, hd, rfl⟩
  · exact Option.noConfusion h

/-- C4: after every normally-returning load the slot list has exactly the
matched device-table entry's slot count, its identifiers are the ordered
sequence `0 .. n-1`, and the kernel and slot lists of the result are
determined by the descriptor and table alone — a second load on any prior
project state (slot counter reset included) yields identical kernel and
slot lists, with identifiers restarting at 0. -/
theorem C4_slot_identifiers :
    ∀ (p : Project) (table : List DeviceEntry) (fp : String) (cfg : Cfg)
      (r : Project), load p table fp (some cfg) = LoadResult.returned r →
      (r.slots.map Slot.id = List.range r.shuffler.slots ∧
       r.slots.length = r.shuffler.slots) ∧
      (∃ d, table.find? (fun e => strContains e.ident r.impl.part) = some d ∧
        r.shuffler.slots = d.slots) ∧
      (∀ (p2 : Project) (r2 : Project),
        load p2 table fp (some cfg) = LoadResult.returned r2 →
        r2.kerns = r.kerns ∧ r2.slots = r.slots) := by
  intro p table fp cfg r h
  obtain ⟨hpp, hck⟩ := load_returned_inv p table fp cfg r h
  obtain ⟨q, sh, ks, hg, hsh, hks, hr⟩ := parse_project_ok_inv _ _ _ _ hpp
  subst hr
  refine ⟨⟨mkSlots_map_id _, mkSlots_length _⟩, ?_, ?_⟩
  · exact parse_shuffler_some_inv table q.impl.part sh hsh
  · intro p2 r2 h2
    obtain ⟨hpp2, hck2⟩ := load_returned_inv p2 table fp cfg r2 h2
    obtain ⟨q2, sh2, ks2, hg2, hsh2, hks2, hr2⟩ := parse_project_ok_inv _ _ _ _ hpp2
    subst hr2
    have hpart : q2.impl.part = q.impl.part := by
      have e1 := (parse_general_ok _ _ _ hg).2.2.2.2.2.2.2
      have e2 := (parse_general_ok _ _ _ hg2).2.2.2.2.2.2.2
      rw [e1] at e2
      exact (Option.some.inj e2).symm
    have hshe : sh2 = sh := by
      rw [hpart] at hsh2
      rw [hsh] at hsh2
      exact (Option.some.inj hsh2).symm
    have hkern0 : q.kerns = ([] : List Kernel) :=
      (parse_general_ok _ _ _ hg).1
    have hkern02 : q2.kerns = ([] : List Kernel) :=
      (parse_general_ok _ _ _ hg2).1
    have hkse : ks2 = ks := by
      rw [hkern0] at hks
      rw [hkern02] at hks2
      rw [hks] at hks2
      exact (Sum.inl.inj hks2).symm
    constructor
    · simp only [hkse]
    · simp only [hshe]


/-- Witness for C4 at the concrete load of `cfgW`. -/
theorem C4_slot_identifiers_witness :
    rW.slots.map Slot.id = List.range 4 ∧ rW.slots.length = 4 := by
  have h := C4_slot_identifiers (projectInit "/repo") tableW "/prj/w.cfg"
    cfgW rW load_evalW
  exact ⟨h.1.1, h.1.2⟩

/-! ## C5 -/

/-- Every slot the slot loop creates starts bound to the placeholder. -/
lemma mkSlots_kerns (n : Nat) : ∀ s ∈ mkSlots n, s.kerns = [dummyKernel] := by
  intro s hs
  unfold mkSlots at hs
  obtain ⟨i, _, rfl⟩ := List.mem_map.mp hs
  rfl

/-- C5: every normally-returning load appends exactly one synthetic
placeholder kernel (name "dummy", vhdl source, 4096 bytes, 2 banks, 2 RW
and 2 RO registers, low reset) after the kernels parsed from the
descriptor, regardless of how many kernel sections it has, and every slot
starts with a bound-kernel list holding exactly that placeholder. -/
theorem C5_placeholder_kernel :
    ∀ (p : Project) (table : List DeviceEntry) (fp : String) (cfg : Cfg)
      (r : Project), load p table fp (some cfg) = LoadResult.returned r →
      dummyKernel =
        { name := "dummy"
          hwsrc := some "vhdl"
          membytes := 4096
          membanks := 2
          regrw := 2
          regro := 2
          rstpol := "low" } ∧
      (∃ ks, parse_kernels [] cfg = Sum.inl ks ∧
        r.kerns = ks ++ [dummyKernel]) ∧
      r.slots.length = r.shuffler.slots ∧
      ∀ s ∈ r.slots, s.kerns = [dummyKernel] := by
  intro p table fp cfg r h
  obtain ⟨hpp, hck⟩ := load_returned_inv p table fp cfg r h
  obtain ⟨q, sh, ks, hg, hsh, hks, hr⟩ := parse_project_ok_inv _ _ _ _ hpp
  subst hr
  have hkern0 : q.kerns = ([] : List Kernel) := (parse_general_ok _ _ _ hg).1
  rw [hkern0] at hks
  exact ⟨rfl, ⟨ks, hks, rfl⟩, mkSlots_length _, mkSlots_kerns _⟩

/-- Witness for C5 at the concrete load of `cfgW` (no kernel sections). -/
theorem C5_placeholder_kernel_witness :
    rW.kerns = [dummyKernel] ∧ rW.slots.length = 4 := by
  have h := C5_placeholder_kernel (projectInit "/repo") tableW "/prj/w.cfg"
    cfgW rW load_evalW
  obtain ⟨hdum, ⟨ks, hks, hkerns⟩, hlen, hall⟩ := h
  have hev : parse_kernels [] cfgW = Sum.inl [] := rfl
  rw [hev] at hks
  have hnil : ks = ([] : List Kernel) := (Sum.inl.inj hks).symm
  rw [hnil] at hkerns
  exact ⟨by simpa using hkerns, hlen⟩

/-! ## C6 -/

/-- Inversion of the shared integer-option defaulting block. -/
lemma getIntOpt_ok_inv (sec : A3Section) (key : String) (d i : Int)
    (h : getIntOpt sec key d = Except.ok i) :
    (secGet sec key = none ∧ i = d) ∨
      (∃ v, secGet sec key = some v ∧ pyInt v = some i) := by
  unfold getIntOpt at h
  split at h
  · rename_i v hv
    split at h
    · rename_i j hj
      injection h with h
      subst h
      exact Or.inr ⟨v, hv, hj⟩
    · exact Except.noConfusion h
  · rename_i hv
    injection h with h
    exact Or.inl ⟨hv, h.symm⟩

/-- A missing key yields the logged default. -/
lemma getIntOpt_default (sec : A3Section) (key : String) (d i : Int)
    (h : getIntOpt sec key d = Except.ok i)
    (habs : secGet sec key = none) : i = d := by
  rcases getIntOpt_ok_inv sec key d i h with ⟨_, he⟩ | ⟨v, hv, _⟩
  · exact he
  · rw [habs] at hv
    exact Option.noConfusion hv

/-- A present numeric value is stored as parsed. -/
lemma getIntOpt_present (sec : A3Section) (key : String) (d i j : Int)
    (v : String) (h : getIntOpt sec key d = Except.ok i)
    (hp : secGet sec key = some v) (hj : pyInt v = some j) : i = j := by
  rcases getIntOpt_ok_inv sec key d i h with ⟨hn, _⟩ | ⟨w, hw, hpw⟩
  · rw [hp] at hn
    exact Option.noConfusion hn
  · rw [hp] at hw
    have hvw : v = w := Option.some.inj hw
    subst hvw
    rw [hj] at hpw
    exact (Option.some.inj hpw).symm

/-- Decomposes a successful defaulting pass into its six field reads. -/
lemma kernel_fields_inv (sec : A3Section) (f : RawKernelFields)
    (h : kernel_fields sec = Except.ok f) :
    f.hwsrc = secGet sec "HwSource" ∧
    getIntOpt sec "MemBytes" (16 * 2 ^ 10) = Except.ok f.membytes ∧
    getIntOpt sec "MemBanks" 2 = Except.ok f.membanks ∧
    getIntOpt sec "RegRW" 4 = Except.ok f.regrw ∧
    getIntOpt sec "RegRO" 4 = Except.ok f.regro ∧
    f.rstpol = (secGet sec "RstPol").getD "low" := by
  unfold kernel_fields at h
  split at h
  · exact Except.noConfusion h
  split at h
  · exact Except.noConfusion h
  split at h
  · exact Except.noConfusion h
  split at h
  · exact Except.noConfusion h
  · injection h with h
    subst h
    exact ⟨rfl, by assumption, by assumption, by assumption, by assumption, rfl⟩

/-- C6: for every kernel section, absent fields are defaulted (hardware
source left unset, 16384 memory bytes, 2 banks, 4 RW and 4 RO registers,
low reset polarity) and present fields take their parsed values. -/
theorem C6_field_defaults :
    ∀ (sec : A3Section) (f : RawKernelFields),
      kernel_fields sec = Except.ok f →
      (secGet sec "HwSource" = none → f.hwsrc = none) ∧
      (∀ v, secGet sec "HwSource" = some v → f.hwsrc = some v) ∧
      (secGet sec "MemBytes" = none → f.membytes = 16384) ∧
      (∀ v i, secGet sec "MemBytes" = some v → pyInt v = some i →
        f.membytes = i) ∧
      (secGet sec "MemBanks" = none → f.membanks = 2) ∧
      (∀ v i, secGet sec "MemBanks" = some v → pyInt v = some i →
        f.membanks = i) ∧
      (secGet sec "RegRW" = none → f.regrw = 4) ∧
      (∀ v i, secGet sec "RegRW" = some v → pyInt v = some i →
        f.regrw = i) ∧
      (secGet sec "RegRO" = none → f.regro = 4) ∧
      (∀ v i, secGet sec "RegRO" = some v → pyInt v = some i →
        f.regro = i) ∧
      (secGet sec "RstPol" = none → f.rstpol = "low") ∧
      (∀ v, secGet sec "RstPol" = some v → f.rstpol = v) := by
  intro sec f h
  obtain ⟨hhw, hmb, hbk, hrw, hro, hrp⟩ := kernel_fields_inv sec f h
  refine ⟨?_, ?_, ?_, ?_, ?_, ?_, ?_, ?_, ?_, ?_, ?_, ?_⟩
  · intro ha
    rw [hhw, ha]
  · intro v hv
    rw [hhw, hv]
  · intro ha
    have := getIntOpt_default sec "MemBytes" (16 * 2 ^ 10) f.membytes hmb ha
    rw [this]
    norm_num
  · intro v i hv hi
    exact getIntOpt_present sec "MemBytes" (16 * 2 ^ 10) f.membytes i v hmb hv hi
  · intro ha
    exact getIntOpt_default sec "MemBanks" 2 f.membanks hbk ha
  · intro v i hv hi
    exact getIntOpt_present sec "MemBanks" 2 f.membanks i v hbk hv hi
  · intro ha
    exact getIntOpt_default sec "RegRW" 4 f.regrw hrw ha
  · intro v i hv hi
    exact getIntOpt_present sec "RegRW" 4 f.regrw i v hrw hv hi
  · intro ha
    exact getIntOpt_default sec "RegRO" 4 f.regro hro ha
  · intro v i hv hi
    exact getIntOpt_present sec "RegRO" 4 f.regro i v hro hv hi
  · intro ha
    rw [hrp, ha]
    rfl
  · intro v hv
    rw [hrp, hv]
    rfl

/-- A kernel section with every optional field absent. -/
def secDef : A3Section := { header := "A3Kernel@d", opts := [] }

/-- The fully-defaulted fields of `secDef`. -/
def fDef : RawKernelFields :=
  { hwsrc := none
    membytes := 16384
    membanks := 2
    regrw := 4
    regro := 4
    rstpol := "low" }

/-- `secDef` takes every default. -/
lemma secDef_fields : kernel_fields secDef = Except.ok fDef := rfl

/-- A kernel section with every field present. -/
def secFull : A3Section :=
  { header := "A3Kernel@f"
    opts := [("HwSource", "verilog"), ("MemBytes", "16401"),
             ("MemBanks", "3"), ("RegRW", "5"), ("RegRO", "6"),
             ("RstPol", "high")] }

/-- The parsed fields of `secFull`. -/
def fFull : RawKernelFields :=
  { hwsrc := some "verilog"
    membytes := 16401
    membanks := 3
    regrw := 5
    regro := 6
    rstpol := "high" }

/-- `secFull` takes every parsed value. -/
lemma secFull_fields : kernel_fields secFull = Except.ok fFull := rfl

/-- Witness for C6: all defaults on `secDef`, all parsed values on
`secFull`. -/
theorem C6_field_defaults_witness :
    fDef.hwsrc = none ∧ fDef.membytes = 16384 ∧ fDef.membanks = 2 ∧
    fDef.regrw = 4 ∧ fDef.regro = 4 ∧ fDef.rstpol = "low" ∧
    fFull.hwsrc = some "verilog" ∧ fFull.membytes = 16401 ∧
    fFull.membanks = 3 ∧ fFull.regrw = 5 ∧ fFull.regro = 6 ∧
    fFull.rstpol = "high" := by
  obtain ⟨d1, d2, d3, d4, d5, d6, d7, d8, d9, d10, d11, d12⟩ :=
    C6_field_defaults secDef fDef secDef_fields
  obtain ⟨e1, e2, e3, e4, e5, e6, e7, e8, e9, e10, e11, e12⟩ :=
    C6_field_defaults secFull fFull secFull_fields
  exact ⟨d1 rfl, d3 rfl, d5 rfl, d7 rfl, d9 rfl, d11 rfl,
         e2 "verilog" rfl, e4 "16401" 16401 rfl rfl, e6 "3" 3 rfl rfl,
         e8 "5" 5 rfl rfl, e10 "6" 6 rfl rfl, e12 "high" rfl⟩

/-! ## C7 -/

/-- A kernel held by the project before the failing load. -/
def kOld : Kernel :=
  { name := "old"
    hwsrc := some "vhdl"
    membytes := 4096
    membanks := 2
    regrw := 2
    regro := 2
    rstpol := "low" }

/-- A populated project state prior to a load attempt. -/
def p0C7 : Project :=
  { kerns := [kOld]
    slots := []
    shuffler := shufflerInit
    impl := implInit "/repo"
    name := "oldname"
    file := "/old/file.cfg"
    dir := "/old"
    basedir := "/old/file" }

/-- C7 counterexample: loading an unreadable path returns early but has
already mutated the project — the file, dir and basedir fields are
overwritten and the kernel list is cleared, contradicting the claim that no
field differs from its pre-load value. -/
theorem C7_unreadable_mutates_counterexample :
    load p0C7 [] "/new/proj.cfg" none =
      LoadResult.softError (load_init p0C7 "/new/proj.cfg") ∧
    ¬ ((load_init p0C7 "/new/proj.cfg").file = p0C7.file) ∧
    ¬ ((load_init p0C7 "/new/proj.cfg").kerns = p0C7.kerns) ∧
    ¬ ((load_init p0C7 "/new/proj.cfg").dir = p0C7.dir) ∧
    ¬ ((load_init p0C7 "/new/proj.cfg").basedir = p0C7.basedir) := by
  decide

/-- C7 (amended): on an unreadable descriptor, `load` logs and returns
early, but only after its unconditional preamble has cleared the kernel and
slot lists and overwritten the three path fields; the name, shuffler and
implementation fields keep their pre-load values, and no parsing, slot
creation or validation happens. -/
theorem C7_unreadable_soft_return (p : Project) (table : List DeviceEntry)
    (fp : String) :
    load p table fp none = LoadResult.softError (load_init p fp) ∧
    (load_init p fp).kerns = [] ∧ (load_init p fp).slots = [] ∧
    (load_init p fp).name = p.name ∧
    (load_init p fp).shuffler = p.shuffler ∧
    (load_init p fp).impl = p.impl ∧
    (load_init p fp).file = abspath fp ∧
    (load_init p fp).dir = dirname (abspath fp) ∧
    (load_init p fp).basedir = trimext (abspath fp) :=
  ⟨rfl, rfl, rfl, rfl, rfl, rfl, rfl, rfl, rfl⟩

/-! ## C8 -/

/-- C8 (amended): a kernel section without an extractable name makes the
loop body log an error and then evaluate `match.group("name")` on `None`,
raising `AttributeError`: the kernel loop stops there (no kernel with an
undefined name is appended, and later sections are not processed) instead
of continuing. -/
theorem C8_missing_name_raises :
    ∀ (sec : A3Section), extractName sec.header = none →
      parse_kernel_section sec = Except.error "AttributeError" ∧
      (∀ (acc : List Kernel) (rest : List A3Section),
        parse_kernels_go acc (sec :: rest) =
          Sum.inr (acc, "AttributeError")) := by
  intro sec h
  have hp : parse_kernel_section sec = Except.error "AttributeError" := by
    unfold parse_kernel_section
    rw [h]
  refine ⟨hp, fun acc rest => ?_⟩
  unfold parse_kernels_go
  rw [hp]

/-- A kernel section whose header has no `@name` suffix. -/
def badSecC8 : A3Section := { header := "A3Kernel", opts := [] }

/-- A well-formed kernel section placed after the malformed one. -/
def goodSecC8 : A3Section :=
  { header := "A3Kernel@ok", opts := [("HwSource", "vhdl")] }

/-- A descriptor with a malformed kernel header followed by a valid one. -/
def cfgBadC8 : Cfg := { sections := [generalSecW, badSecC8, goodSecC8] }

/-- C8 counterexample: on a descriptor whose kernel header has no
extractable name, `load` ends in an uncaught exception and kernel parsing
stops at the malformed section (the valid section after it is never
appended) — the code does not continue past the failed extraction. -/
theorem C8_missing_name_counterexample :
    (load (projectInit "/repo") tableW "/prj/w.cfg"
        (some cfgBadC8)).isRaised = true ∧
    parse_kernels [] cfgBadC8 = Sum.inr ([], "AttributeError") := by
  constructor
  · rfl
  · rfl

/-- Witness for the amended C8 at the concrete malformed section. -/
theorem C8_missing_name_raises_witness :
    parse_kernel_section badSecC8 = Except.error "AttributeError" ∧
    parse_kernels_go [] [badSecC8] = Sum.inr ([], "AttributeError") := by
  have h := C8_missing_name_raises badSecC8 (by decide)
  exact ⟨h.1, h.2 [] []⟩

/-! ## C9 -/

/-- C9: `get_template` returns the project-local path exactly when it
exists on the filesystem oracle, and the shared repository path otherwise;
in particular the local path is preferred when both exist.  The lookup is a
pure function of the project and returns only a path, so no project state
changes. -/
theorem C9_template_local_override :
    ∀ (fs : String → Bool) (p : Project) (name : String),
      (fs (joinPath (joinPath p.dir "templates") name) = true →
        get_template fs p name = joinPath (joinPath p.dir "templates") name) ∧
      (fs (joinPath (joinPath p.dir "templates") name) = false →
        get_template fs p name =
          joinPath (joinPath p.impl.repo "templates") name) := by
  intro fs p name
  constructor
  · intro h
    unfold get_template
    rw [if_pos h]
  · intro h
    unfold get_template
    rw [if_neg]
    rw [h]
    exact Bool.false_ne_true

/-- A project with distinct local and repository template roots. -/
def pC9 : Project :=
  { kerns := []
    slots := []
    shuffler := shufflerInit
    impl := implInit "/repo"
    name := "demo"
    file := "/prj/w.cfg"
    dir := "/prj"
    basedir := "/prj/w" }

/-- Witness for C9: an always-true oracle (both paths exist) resolves to
the project-local template, an always-false one to the repository. -/
theorem C9_template_local_override_witness :
    get_template (fun _ => true) pC9 "tpl" =
      joinPath (joinPath pC9.dir "templates") "tpl" ∧
    get_template (fun _ => false) pC9 "tpl" =
      joinPath (joinPath pC9.impl.repo "templates") "tpl" := by
  exact ⟨(C9_template_local_override (fun _ => true) pC9 "tpl").1 rfl,
         (C9_template_local_override (fun _ => false) pC9 "tpl").2 rfl⟩
